import Mathlib

/-!
Verification of the plan-graph completion engine
(`verify_and_repair_planning.py`, with the id-to-filename mapping of
`save_node`).  The Python classes `PlanGraph` and `VerifyAndRepair` are
embedded shallowly: dictionaries become association lists in insertion
order, Python sets become duplicate-free lists, the filesystem store is
identified with the in-memory graph (no external writers are modelled),
and every method becomes a pure function.  Attribute dictionaries are
modelled by a record holding exactly the keys the engine ever reads or
writes; a missing key reads as the default value (`""`, `[]`, `false`),
matching `node.get(key, default)`.  Write-only constant fields
(checklist, evidence, est_h, owner, updated_at, sec, err, ...) are
omitted: the engine never reads them back and they are the same
constants on every run.
-/

set_option autoImplicit false

namespace PlanRepair

/-- A directed typed edge `{from, to, type}` as stored in `edges.ndjson`.
The Python key `from` is a Lean keyword, so the fields are named
`src`, `tgt`, `etype`. -/
structure Edge where
  src : String
  tgt : String
  etype : String
  deriving DecidableEq, Repr

/-- A node record.  Fields mirror the JSON keys the engine reads or
writes; `obs` and `observability` model the Python truthiness of the
corresponding values, `testMocks`/`testAcc` model `test["mocks"]` and
`test["acc"]`. -/
structure Node where
  id : String := ""
  type : String := ""
  stmt : String := ""
  status : String := ""
  requirements : List String := []
  tests : List String := []
  contracts : List String := []
  components : List String := []
  change_specs : List String := []
  implements : List String := []
  ix : List String := []
  simple : Bool := false
  depends_on : List String := []
  rollout_flag : String := ""
  versioning : String := ""
  contract_type : String := ""
  testMocks : List String := []
  testAcc : List String := []
  obs : Bool := false
  observability : Bool := false
  deriving DecidableEq, Repr

/-- The in-memory plan graph of `PlanGraph`: `nodes` is the id-keyed
dict (association list in insertion order), `nodeByType` mirrors
`node_by_type` (type-directory name to ids, set semantics modelled as a
duplicate-free insertion-ordered list), `edges` the edge list. -/
structure Graph where
  nodes : List (String × Node) := []
  nodeByType : List (String × List String) := []
  edges : List Edge := []
  deriving DecidableEq, Repr

/-- Python dict lookup `self.nodes.get(node_id)`. -/
def Graph.getNode (g : Graph) (nid : String) : Option Node :=
  (g.nodes.find? (fun p => p.1 == nid)).map (fun p => p.2)

/-- Python membership test `node_id in self.nodes`. -/
def Graph.hasNode (g : Graph) (nid : String) : Bool :=
  (g.getNode nid).isSome

/-- Dict upsert `d[k] = v`: an existing key keeps its position, a new
key is appended (CPython insertion-order semantics). -/
def dictUpsert (l : List (String × Node)) (k : String) (v : Node) :
    List (String × Node) :=
  if l.any (fun p => p.1 == k) then
    l.map (fun p => if p.1 == k then (k, v) else p)
  else l ++ [(k, v)]

/-- Set insertion `self.node_by_type[t].add(nid)`. -/
def byTypeAdd (l : List (String × List String)) (t nid : String) :
    List (String × List String) :=
  if l.any (fun p => p.1 == t) then
    l.map (fun p =>
      if p.1 == t then (t, if p.2.contains nid then p.2 else p.2 ++ [nid]) else p)
  else l ++ [(t, [nid])]

/-- Lookup `self.node_by_type.get(t, [])`. -/
def Graph.byType (g : Graph) (t : String) : List String :=
  ((g.nodeByType.find? (fun p => p.1 == t)).map (fun p => p.2)).getD []

/-- Method `get_nodes_by_type`:
`[self.nodes[nid] for nid in self.node_by_type.get(t, []) if nid in self.nodes]`. -/
def Graph.getNodesByType (g : Graph) (t : String) : List Node :=
  (g.byType t).filterMap (fun nid => g.getNode nid)

/-- Method `get_edges_from(node_id, edge_type)`. -/
def Graph.getEdgesFrom (g : Graph) (nid : String) (ty : Option String) : List Edge :=
  let r := g.edges.filter (fun e => e.src == nid)
  match ty with
  | none => r
  | some t => r.filter (fun e => e.etype == t)

/-- Method `get_edges_to(node_id, edge_type)`. -/
def Graph.getEdgesTo (g : Graph) (nid : String) (ty : Option String) : List Edge :=
  let r := g.edges.filter (fun e => e.tgt == nid)
  match ty with
  | none => r
  | some t => r.filter (fun e => e.etype == t)

/-- Method `save_node`: upsert into the dict and add to
`node_by_type[node["type"]]`; the file write is the same upsert because
store and memory coincide without external writers. -/
def Graph.saveNode (g : Graph) (nid : String) (node : Node) : Graph :=
  { g with nodes := dictUpsert g.nodes nid node,
           nodeByType := byTypeAdd g.nodeByType node.type nid }

/-- Bare in-memory assignment `self.graph.nodes[nid] = node` (used inside
`_emit_delta_bundle`; note it does not touch `node_by_type`, so nodes
added this way are invisible to `get_nodes_by_type`). -/
def Graph.memPut (g : Graph) (nid : String) (node : Node) : Graph :=
  { g with nodes := dictUpsert g.nodes nid node }

/-- Test `get_node(x) and get_node(x).get("type") == t`. -/
def nodeTypeIs (g : Graph) (nid : String) (t : String) : Bool :=
  match g.getNode nid with
  | some n => n.type == t
  | none => false

/-- Convenience constructor for a store whose type directories agree
with the `type` field of each node (the layout `save_node` itself
produces). -/
def mkGraph (ns : List Node) (es : List Edge) : Graph :=
  { nodes := ns.map (fun n => (n.id, n)),
    nodeByType := ns.foldl (fun acc n => byTypeAdd acc n.type n.id) [],
    edges := es }

/-- Python substring test `pat in s.lower()` (all patterns in the source
are lower-case literals). -/
def strHas (s : String) (pat : String) : Bool :=
  decide (pat.data <:+: s.data.map Char.toLower)

/-- Substring replacement worker; the fuel argument makes the recursion
structural (each step consumes at least one character, so fuel equal to
the length of the list is enough). -/
def replaceListGo (pat rep : List Char) : Nat → List Char → List Char
  | 0, l => l
  | _ + 1, [] => []
  | fuel + 1, c :: rest =>
    if !pat.isEmpty && pat.isPrefixOf (c :: rest) then
      rep ++ replaceListGo pat rep fuel ((c :: rest).drop pat.length)
    else c :: replaceListGo pat rep fuel rest

/-- Substring replacement, as Python `str.replace`: every occurrence of
`pat` is replaced by `rep` left to right. -/
def replaceList (pat rep l : List Char) : List Char :=
  replaceListGo pat rep l.length l

/-- String-level wrapper for `replaceList`. -/
def strReplace (s pat rep : String) : String :=
  ⟨replaceList pat.data rep.data s.data⟩

/-- Python `s.split('-')[0]`: the segment before the first dash. -/
def firstDashSegment (s : String) : String :=
  ⟨s.data.takeWhile (fun c => c ≠ '-')⟩

/-! ## Gap Analyzer: `_compute_sets` -/

/-- The gap sets computed by `_compute_sets`, as lists of ids (Python
sets; each list is built without duplicates). -/
structure GapSets where
  S0 : List String
  R0 : List String
  C0 : List String
  IX_orphan : List String
  API_weak : List String
  Q_open : List String
  deriving DecidableEq, Repr

/-- InteractionSpec ids considered for a ChangeSpec:
`set(cs["ix"] + [e["from"] for depends_on edges into cs from InteractionSpec nodes])`. -/
def csIxIds (g : Graph) (cs : Node) : List String :=
  let csEdges := g.getEdgesTo cs.id (some "depends_on")
  let ixFromEdges :=
    (csEdges.filter (fun e => nodeTypeIs g e.src "InteractionSpec")).map (fun e => e.src)
  (cs.ix ++ ixFromEdges).dedup

/-- Count of the members of `csIxIds` that exist as nodes
(`valid_ix = [i for i in all_ix if has_node(i)]`, then `len`). -/
def validIxCount (g : Graph) (cs : Node) : Nat :=
  ((csIxIds g cs).filter (fun ixid => g.hasNode ixid)).length

/-- ChangeSpec ids considered for a requirement in the `S0` computation:
`req["change_specs"]` unioned with the targets of `implements`-typed
edges going out of the requirement into ChangeSpec nodes. -/
def s0CsIds (g : Graph) (reqId : String) (req : Node) : List String :=
  let reqEdges := g.getEdgesFrom reqId none
  let csFromEdges :=
    (reqEdges.filter (fun e =>
      e.etype == "implements" && nodeTypeIs g e.tgt "ChangeSpec")).map (fun e => e.tgt)
  (req.change_specs ++ csFromEdges).dedup

/-- Contribution of one referenced requirement id to a scenario's
InteractionSpec count in the `S0` computation. -/
def s0ReqCount (g : Graph) (reqId : String) : Nat :=
  match g.getNode reqId with
  | none => 0
  | some req =>
    (((s0CsIds g reqId req).filterMap (fun cid => g.getNode cid)).map
      (fun cs => validIxCount g cs)).sum

/-- Total `ix_count` accumulated for one scenario in the `S0` loop. -/
def s0ScenarioIxCount (g : Graph) (s : Node) : Nat :=
  (s.requirements.map (fun rid => s0ReqCount g rid)).sum

/-- Gap set `S0`: scenarios whose accumulated InteractionSpec count is
zero. -/
def computeS0 (g : Graph) : List String :=
  (g.getNodesByType "Scenario").filterMap (fun s =>
    if s0ScenarioIxCount g s == 0 then some s.id else none)

/-- The four completeness facts `_compute_sets` derives for a
requirement: has api contract, has data contract, has component, has
changespec — each checked against attribute lists unioned with the
relevant edges, and by node existence. -/
def reqCompleteness (g : Graph) (reqId : String) (req : Node) :
    Bool × Bool × Bool × Bool :=
  let reqEdges := g.getEdgesFrom reqId (some "depends_on")
  let contractEdges :=
    (reqEdges.filter (fun e => nodeTypeIs g e.tgt "Contract")).map (fun e => e.tgt)
  let allContracts := (req.contracts ++ contractEdges).dedup
  let componentEdges :=
    (reqEdges.filter (fun e => nodeTypeIs g e.tgt "Component")).map (fun e => e.tgt)
  let allComponents := (req.components ++ componentEdges).dedup
  let implEdges := g.getEdgesTo reqId (some "implements")
  let csFromEdges :=
    (implEdges.filter (fun e => nodeTypeIs g e.src "ChangeSpec")).map (fun e => e.src)
  let allCs := (req.change_specs ++ csFromEdges).dedup
  (allContracts.any (fun cid => strHas cid "api" && g.hasNode cid),
   allContracts.any (fun cid => strHas cid "data" && g.hasNode cid),
   allComponents.any (fun cid => g.hasNode cid),
   allCs.any (fun cid => g.hasNode cid))

/-- Gap set `R0`: requirements for which any of the four completeness
facts fails. -/
def computeR0 (g : Graph) : List String :=
  (g.getNodesByType "Requirement").filterMap (fun req =>
    let c := reqCompleteness g req.id req
    if !c.1 || !c.2.1 || !c.2.2.1 || !c.2.2.2 then some req.id else none)

/-- Gap set `C0`: non-simple ChangeSpecs with zero valid
InteractionSpecs. -/
def computeC0 (g : Graph) : List String :=
  (g.getNodesByType "ChangeSpec").filterMap (fun cs =>
    if cs.simple then none
    else if validIxCount g cs == 0 then some cs.id else none)

/-- InteractionSpec ids reachable in the `IX_orphan` computation: the
nested loops use attribute lists only — `scenario["requirements"]`,
`req["change_specs"]`, `cs["ix"]` — and require the final id to exist. -/
def reachableIX (g : Graph) : List String :=
  (g.getNodesByType "Scenario").flatMap (fun s =>
    s.requirements.flatMap (fun rid =>
      match g.getNode rid with
      | none => []
      | some req =>
        req.change_specs.flatMap (fun cid =>
          match g.getNode cid with
          | none => []
          | some cs => cs.ix.filter (fun ixid => g.hasNode ixid))))

/-- Gap set `IX_orphan`: InteractionSpec nodes whose id is not in the
reachable set. -/
def computeIXOrphan (g : Graph) : List String :=
  let reach := reachableIX g
  (g.getNodesByType "InteractionSpec").filterMap (fun ixn =>
    if reach.contains ixn.id then none else some ixn.id)

/-- Keyword test `"authz" in stmt or "auth" in stmt or "authorization" in stmt`. -/
def apiHasAuthz (stmt : String) : Bool :=
  strHas stmt "authz" || strHas stmt "auth" || strHas stmt "authorization"

/-- Keyword test for rate limiting. -/
def apiHasRate (stmt : String) : Bool :=
  strHas stmt "rate" || strHas stmt "quota"

/-- Keyword test for idempotency. -/
def apiHasIdempotency (stmt : String) : Bool :=
  strHas stmt "idempotency" || strHas stmt "idempotent"

/-- Keyword test for timeouts. -/
def apiHasTimeouts (stmt : String) : Bool :=
  strHas stmt "timeout"

/-- Keyword test for an error taxonomy. -/
def apiHasError (stmt : String) : Bool :=
  strHas stmt "error" || strHas stmt "taxonomy"

/-- Keyword test for observability. -/
def apiHasObs (stmt : String) : Bool :=
  strHas stmt "observability" || strHas stmt "log" || strHas stmt "metric" ||
    strHas stmt "trace"

/-- Number of the six API vocabulary terms missing from a contract
statement. -/
def apiMissingCount (stmt : String) : Nat :=
  (if apiHasAuthz stmt then 0 else 1) + (if apiHasRate stmt then 0 else 1) +
  (if apiHasIdempotency stmt then 0 else 1) + (if apiHasTimeouts stmt then 0 else 1) +
  (if apiHasError stmt then 0 else 1) + (if apiHasObs stmt then 0 else 1)

/-- Gap set `API_weak`: contracts whose id contains `"api"` and whose
statement misses at least two of the six vocabulary terms. -/
def computeAPIWeak (g : Graph) : List String :=
  (g.getNodesByType "Contract").filterMap (fun c =>
    if strHas c.id "api" then
      if 2 ≤ apiMissingCount c.stmt then some c.id else none
    else none)

/-- Gap set `Q_open`: OpenQuestion nodes with status `Open`. -/
def computeQOpen (g : Graph) : List String :=
  (g.getNodesByType "OpenQuestion").filterMap (fun q =>
    if q.status == "Open" then some q.id else none)

/-- Method `_compute_sets`. -/
def computeSets (g : Graph) : GapSets :=
  { S0 := computeS0 g, R0 := computeR0 g, C0 := computeC0 g,
    IX_orphan := computeIXOrphan g, API_weak := computeAPIWeak g,
    Q_open := computeQOpen g }

/-- `total_gaps` as summed in `verify_and_repair` (note `Q_open` is not
counted). -/
def totalGaps (s : GapSets) : Nat :=
  s.S0.length + s.R0.length + s.C0.length + s.IX_orphan.length + s.API_weak.length

/-! ## Delta Synthesizer: `_emit_delta_bundle`

Deltas carry the dictionary value at the moment they are appended.  In
Python the appended dicts are aliased and occasionally mutated after
being appended; each such mutation is always followed by an
`update_node` delta carrying the final value, and `_apply_deltas`
applies all `add_node` deltas before all `update_node` deltas, so the
applied result is identical under value semantics. -/

/-- One graph mutation: `{"op": "add_node" | "add_edge" | "update_node", ...}`. -/
inductive Delta where
  | add_node (node : Node)
  | add_edge (src tgt etype : String)
  | update_node (node : Node)
  deriving DecidableEq, Repr

/-- Statement lookup `node.get("stmt", node_id)` (an empty statement is
identified with a missing key). -/
def stmtOr (n : Node) : String :=
  if n.stmt == "" then n.id else n.stmt

/-- Requirement minted by phase A. -/
def mintRequirementA (scenario : Node) (reqId changeId apiId dataId compId : String) :
    Node :=
  { id := reqId, type := "Requirement",
    stmt := "Baseline requirement for " ++ stmtOr scenario,
    status := "Open", change_specs := [changeId],
    contracts := [apiId, dataId], components := [compId] }

/-- API contract minted by phases A and C (its statement contains all
six API vocabulary terms). -/
def mintApiContract (cid base : String) : Node :=
  { id := cid, type := "Contract",
    stmt := "API contract for " ++ base ++
      " (AUTHZ scopes, RATE LIMIT quota tier, IDEMPOTENCY key, TIMEOUTS ms, ERROR TAXONOMY codes, OBSERVABILITY logs/metrics/spans)",
    status := "Open", contract_type := "api", versioning := "semver:minor" }

/-- Data contract minted by phases A and C (note: no `versioning` key). -/
def mintDataContract (cid base : String) : Node :=
  { id := cid, type := "Contract",
    stmt := "Data contract for " ++ base ++
      " (schema, migration, retention, PII, region, index, backup, restore)",
    status := "Open", contract_type := "data" }

/-- Component minted by phases A and C (note: no `observability` key). -/
def mintComponent (cid base : String) : Node :=
  { id := cid, type := "Component", stmt := "Logical component for " ++ base,
    status := "Open" }

/-- ChangeSpec minted by phases A and C. -/
def mintChange (cid base reqId : String) : Node :=
  { id := cid, type := "ChangeSpec", stmt := "Implement " ++ base,
    status := "Open", implements := [reqId], ix := [],
    rollout_flag := "feature." ++ base, simple := false }

/-- InteractionSpec minted by phases A, B and C (phase B iterates
`operations[:1]`, so only the `create` variant is ever built). -/
def mintIx (ixid depId : String) : Node :=
  { id := ixid, type := "InteractionSpec", stmt := "Create operation via API",
    status := "Open", depends_on := [depId],
    testMocks := ["Database", "Auth service"],
    testAcc := ["Given resource exists\nWhen user creates\nThen operation succeeds"],
    obs := true }

/-- Scenario minted by phase D. -/
def mintScenarioD (scenarioId reqId : String) (req : Node) : Node :=
  { id := scenarioId, type := "Scenario", stmt := "Scenario for " ++ stmtOr req,
    status := "Open", requirements := [reqId], tests := [] }

/-- ChangeSpec minted by phase D for an orphan with no resolvable
ChangeSpec reference. -/
def mintChangeD (changeId reqId ixId : String) : Node :=
  { id := changeId, type := "ChangeSpec",
    stmt := "Auto-created change for " ++ ixId, status := "Open",
    implements := [reqId], ix := [ixId],
    rollout_flag := "feature." ++ strReplace changeId "change:" "",
    simple := false }

/-- Test node minted by phase F. -/
def mintTest (testId : String) (scenario : Node) : Node :=
  { id := testId, type := "Test",
    stmt := "Acceptance test for " ++ stmtOr scenario, status := "Open" }

/-- Phase A body for one scenario id in `S0`: seed the minimal chain.
Threads the in-memory graph (dict assignments and aliased mutations)
and appends the emitted deltas. -/
def phaseAScenario (st : Graph × List Delta) (scenarioId : String) :
    Graph × List Delta :=
  let g := st.1
  match g.getNode scenarioId with
  | none => st
  | some scenario =>
    let sBase := strReplace scenarioId "scenario:" ""
    let reqId := "req:" ++ sBase ++ "-baseline"
    let apiId := "contract:api-" ++ sBase
    let dataId := "contract:data-" ++ sBase
    let compId := "component:" ++ sBase
    let changeId := "change:" ++ sBase
    let ds1 : List Delta :=
      if g.hasNode reqId then []
      else [.add_node (mintRequirementA scenario reqId changeId apiId dataId compId)]
    let ds2 := ds1 ++
      (if g.hasNode apiId then [] else [.add_node (mintApiContract apiId sBase)])
    let ds3 := ds2 ++
      (if g.hasNode dataId then [] else [.add_node (mintDataContract dataId sBase)])
    let ds4 := ds3 ++
      (if g.hasNode compId then [] else [.add_node (mintComponent compId sBase)])
    let changeOpt : Option Node :=
      if g.hasNode changeId then g.getNode changeId
      else some (mintChange changeId sBase reqId)
    let ds5 := ds4 ++
      (if g.hasNode changeId then [] else [.add_node (mintChange changeId sBase reqId)])
    let ixId := "ix:" ++ sBase ++ "-api-create-fresh-under-ok"
    let step6 : Graph × List Delta :=
      match changeOpt with
      | some change =>
        if g.hasNode ixId then (g, ds5)
        else
          let change2 := { change with ix := change.ix ++ [ixId] }
          (g.memPut changeId change2,
           ds5 ++ [.add_node (mintIx ixId apiId),
                   .add_edge ixId changeId "depends_on",
                   .update_node change2])
      | none => (g, ds5)
    let g2 := step6.1
    let scenario2 := { scenario with requirements := scenario.requirements ++ [reqId] }
    let g3 := g2.memPut scenarioId scenario2
    let ds7 := step6.2 ++ [.update_node scenario2] ++
      [.add_edge scenarioId reqId "traces_to",
       .add_edge reqId apiId "depends_on",
       .add_edge reqId dataId "depends_on",
       .add_edge reqId compId "traces_to",
       .add_edge changeId reqId "implements"]
    (g3, st.2 ++ ds7)

/-- Phase B body for one ChangeSpec id in `C0`: mint one InteractionSpec
(the loop `for operation in operations[:1]` runs only for `create`). -/
def phaseBChange (st : Graph × List Delta) (csId : String) : Graph × List Delta :=
  let g := st.1
  match g.getNode csId with
  | none => st
  | some cs =>
    let csBase := strReplace csId "change:" ""
    let ixId := "ix:" ++ csBase ++ "-api-create-fresh-under-ok"
    if g.hasNode ixId then st
    else
      let cs2 := { cs with ix := cs.ix ++ [ixId] }
      (g.memPut csId cs2,
       st.2 ++ [.add_node (mintIx ixId ("contract:api-" ++ csBase)),
                .add_edge ixId csId "depends_on",
                .update_node cs2])

/-- Phase C body for one requirement id in `R0`: mint whichever of
{api contract, data contract, component, changespec} is missing. -/
def phaseCReq (st : Graph × List Delta) (reqId : String) : Graph × List Delta :=
  let g0 := st.1
  match g0.getNode reqId with
  | none => st
  | some req0 =>
    let reqBase := strReplace (strReplace reqId "req:" "") ":" "-"
    let c := reqCompleteness g0 reqId req0
    -- API contract branch (no requirement mutation in the source here)
    let apiId := "contract:api-" ++ reqBase
    let dsA : List Delta :=
      if !c.1 && !(g0.hasNode apiId) then
        [.add_node (mintApiContract apiId reqBase),
         .add_edge reqId apiId "depends_on"]
      else []
    -- data contract branch (mutates req["contracts"], no update delta)
    let dataId := "contract:data-" ++ reqBase
    let stepData : Graph × List Delta × Node :=
      if !c.2.1 && !(g0.hasNode dataId) then
        let req1 := { req0 with contracts := req0.contracts ++ [dataId] }
        (g0.memPut reqId req1,
         [.add_node (mintDataContract dataId reqBase),
          .add_edge reqId dataId "depends_on"], req1)
      else (g0, [], req0)
    let g1 := stepData.1
    let req1 := stepData.2.2
    -- component branch (mutates req["components"], no update delta)
    let compId := "component:" ++ reqBase
    let stepComp : Graph × List Delta × Node :=
      if !c.2.2.1 && !(g1.hasNode compId) then
        let req2 := { req1 with components := req1.components ++ [compId] }
        (g1.memPut reqId req2,
         [.add_node (mintComponent compId reqBase),
          .add_edge reqId compId "traces_to"], req2)
      else (g1, [], req1)
    let g2 := stepComp.1
    let req2 := stepComp.2.2
    -- changespec branch (mutates req["change_specs"], emits update_node,
    -- then mints one InteractionSpec for the fresh ChangeSpec)
    let changeId := "change:" ++ reqBase
    let stepCs : Graph × List Delta :=
      if !c.2.2.2 && !(g2.hasNode changeId) then
        let req3 := { req2 with change_specs := req2.change_specs ++ [changeId] }
        let g3 := g2.memPut reqId req3
        let dsCs1 : List Delta :=
          [.add_node (mintChange changeId reqBase reqId),
           .add_edge changeId reqId "implements",
           .update_node req3]
        let changeForIx := mintChange changeId reqBase reqId
        let g4 := g3.memPut changeId changeForIx
        let ixId := "ix:" ++ reqBase ++ "-api-create-fresh-under-ok"
        if g4.hasNode ixId then (g4, dsCs1)
        else
          let change2 := { changeForIx with ix := changeForIx.ix ++ [ixId] }
          (g4.memPut changeId change2,
           dsCs1 ++ [.add_node (mintIx ixId ("contract:api-" ++ reqBase)),
                     .add_edge ixId changeId "depends_on",
                     .update_node change2])
      else (g2, [])
    (stepCs.1, st.2 ++ dsA ++ stepData.2.1 ++ stepComp.2.1 ++ stepCs.2)

/-- Phase D body for one orphan InteractionSpec id: reattach through an
existing ChangeSpec reference or mint a new ChangeSpec.  Phase D never
mutates the in-memory graph. -/
def phaseDIx (g : Graph) (acc : List Delta) (ixId : String) : List Delta :=
  match g.getNode ixId with
  | none => acc
  | some ixn =>
    match ixn.depends_on.find? (fun depId => nodeTypeIs g depId "ChangeSpec") with
    | some changeId =>
      (match g.getNode changeId with
       | none => acc
       | some change =>
         match change.implements with
         | [] => acc
         | reqId :: _ =>
           match g.getNode reqId with
           | none => acc
           | some req =>
             let scenarioFound :=
               (g.getNodesByType "Scenario").any (fun s => s.requirements.contains reqId)
             if scenarioFound then acc
             else
               let scenarioId := "scenario:" ++ strReplace reqId "req:" ""
               if g.hasNode scenarioId then acc
               else acc ++ [.add_node (mintScenarioD scenarioId reqId req),
                            .add_edge scenarioId reqId "traces_to"])
    | none =>
      let seg := firstDashSegment (strReplace ixId "ix:" "")
      let reqId := "req:" ++ seg ++ "-auto"
      let changeId := "change:" ++ seg ++ "-auto"
      if g.hasNode changeId then acc
      else acc ++ [.add_node (mintChangeD changeId reqId ixId),
                   .add_edge changeId reqId "implements",
                   .add_edge ixId changeId "depends_on"]

/-- Phase D over the orphan set: only the first 100 ids are processed
(`for ix_id in list(self.IX_orphan)[:100]`). -/
def phaseD (g : Graph) (orphans : List String) : List Delta :=
  (orphans.take 100).foldl (phaseDIx g) []

/-- The list of phase-E enhancement fragments for a contract statement:
exactly the vocabulary terms whose keyword test fails. -/
def eEnhancements (stmt : String) : List String :=
  (if strHas stmt "authz" then [] else ["AUTHZ(scopes)"]) ++
  (if strHas stmt "rate" || strHas stmt "quota" then [] else ["RATE LIMIT(quota tier)"]) ++
  (if strHas stmt "idempotency" then [] else ["IDEMPOTENCY(key)"]) ++
  (if strHas stmt "timeout" then [] else ["TIMEOUTS(ms)"]) ++
  (if strHas stmt "error" || strHas stmt "taxonomy" then [] else ["ERROR TAXONOMY(codes)"]) ++
  (if strHas stmt "observability" || strHas stmt "log" || strHas stmt "metric"
   then [] else ["OBSERVABILITY(logs/metrics/spans)"])

/-- Python `", ".join(enhancements)`. -/
def joinComma : List String → String
  | [] => ""
  | [x] => x
  | x :: xs => x ++ ", " ++ joinComma xs

/-- The hardened statement `f"{stmt} ({', '.join(enhancements)})"`. -/
def eNewStmt (stmt : String) : String :=
  stmt ++ " (" ++ joinComma (eEnhancements stmt) ++ ")"

/-- Phase E body for one contract id in `API_weak`. -/
def phaseEContract (st : Graph × List Delta) (cid : String) : Graph × List Delta :=
  let g := st.1
  match g.getNode cid with
  | none => st
  | some contract =>
    let enh := eEnhancements contract.stmt
    if enh.isEmpty then st
    else
      let c2 := { contract with stmt := eNewStmt contract.stmt }
      (g.memPut cid c2, st.2 ++ [.update_node c2])

/-- Phase F body for one scenario node: attach a Test node when the
scenario has no tests (the scenario attribute itself is not updated). -/
def phaseFScenario (st : Graph × List Delta) (scenario : Node) :
    Graph × List Delta :=
  if scenario.tests.isEmpty then
    let testId := "test:" ++ strReplace scenario.id "scenario:" "" ++ "-acc"
    if st.1.hasNode testId then st
    else (st.1, st.2 ++ [.add_node (mintTest testId scenario),
                         .add_edge scenario.id testId "traces_to"])
  else st

/-- Phase F body for one InteractionSpec node: backfill missing
`test.mocks`/`test.acc` sub-fields. -/
def phaseFIx (st : Graph × List Delta) (ixn : Node) : Graph × List Delta :=
  if ixn.testMocks.isEmpty || ixn.testAcc.isEmpty then
    let ix2 := { ixn with
      testMocks := if ixn.testMocks.isEmpty then ["Database", "Auth service"]
                   else ixn.testMocks,
      testAcc := if ixn.testAcc.isEmpty then
                   ["Given resource exists\nWhen user performs operation\nThen operation succeeds"]
                 else ixn.testAcc }
    (st.1.memPut ixn.id ix2, st.2 ++ [.update_node ix2])
  else st

/-- Method `_emit_delta_bundle`: phases A-F in strict order over the
pre-computed gap sets, threading the in-memory graph. -/
def emitDeltaBundle (g : Graph) (sets : GapSets) : Graph × List Delta :=
  let st1 := sets.S0.foldl phaseAScenario (g, [])
  let st2 := sets.C0.foldl phaseBChange st1
  let st3 := sets.R0.foldl phaseCReq st2
  let st4 := (st3.1, st3.2 ++ phaseD st3.1 sets.IX_orphan)
  let st5 := sets.API_weak.foldl phaseEContract st4
  let st6 := (st5.1.getNodesByType "Scenario").foldl phaseFScenario st5
  (st6.1.getNodesByType "InteractionSpec").foldl phaseFIx st6

/-! ## Applying deltas: `_apply_deltas` -/

/-- One step of the first pass of `_apply_deltas`: apply an `add_node`
delta via `save_node`, ignore the others. -/
def addNodeStep (g : Graph) (d : Delta) : Graph :=
  match d with
  | .add_node n => g.saveNode n.id n
  | _ => g

/-- One step of the second pass of `_apply_deltas`: append an
`add_edge` delta unless an edge with the same `(from, to, type)` triple
already exists, ignore the others. -/
def edgeStep (g : Graph) (d : Delta) : Graph :=
  match d with
  | .add_edge s t ty =>
    if g.edges.any (fun e => e.src == s && e.tgt == t && e.etype == ty) then g
    else { g with edges := g.edges ++ [⟨s, t, ty⟩] }
  | _ => g

/-- One step of the third pass of `_apply_deltas`: apply an
`update_node` delta via `save_node`, ignore the others. -/
def updateStep (g : Graph) (d : Delta) : Graph :=
  match d with
  | .update_node n => g.saveNode n.id n
  | _ => g

/-- First pass of `_apply_deltas`. -/
def applyAddNodes (g : Graph) (ds : List Delta) : Graph :=
  ds.foldl addNodeStep g

/-- Second pass of `_apply_deltas`. -/
def applyEdges (g : Graph) (ds : List Delta) : Graph :=
  ds.foldl edgeStep g

/-- Third pass of `_apply_deltas`. -/
def applyUpdates (g : Graph) (ds : List Delta) : Graph :=
  ds.foldl updateStep g

/-- Method `_apply_deltas`: nodes, then edges, then updates.  The result
is the persisted store, which the controller reloads afterwards. -/
def applyDeltas (g : Graph) (ds : List Delta) : Graph :=
  applyUpdates (applyEdges (applyAddNodes g ds) ds) ds

/-- One pass over the persisted store: compute the gap sets, emit the
delta bundle, and apply it to the store as loaded at the start of the
pass (the emission-time in-memory mutations reach the store only
through the emitted deltas). -/
def runPass (g : Graph) : Graph × List Delta :=
  let sets := computeSets g
  let ds := (emitDeltaBundle g sets).2
  (applyDeltas g ds, ds)

/-! ## Completion proofs: `_run_proofs` -/

/-- The ten proof booleans. -/
structure Proofs where
  P1 : Bool
  P2 : Bool
  P3 : Bool
  P4 : Bool
  P5 : Bool
  P6 : Bool
  P7 : Bool
  P8 : Bool
  P9 : Bool
  P10 : Bool
  deriving DecidableEq, Repr

/-- The eight data-lifecycle vocabulary terms of P3. -/
def dataLifecycleTerms : List String :=
  ["schema", "migration", "retention", "pii", "region", "index", "backup", "restore"]

/-- The sixteen core blueprint areas of P10. -/
def coreAreas : List String :=
  ["identity", "users", "preferences", "navigation", "connectivity", "data-storage",
   "caching", "queues", "secrets", "observability", "analytics", "feature-flags",
   "security", "i18n", "notifications", "payments"]

/-- Method `_run_proofs` (it recomputes the gap sets on the given graph
and derives the ten booleans). -/
def runProofs (g : Graph) : Proofs :=
  let sets := computeSets g
  let components := g.getNodesByType "Component"
  let contracts := g.getNodesByType "Contract"
  let ixList := g.getNodesByType "InteractionSpec"
  let scenarios := g.getNodesByType "Scenario"
  let reqs := g.getNodesByType "Requirement"
  let css := g.getNodesByType "ChangeSpec"
  let p1 := !components.isEmpty && !contracts.isEmpty && !ixList.isEmpty
  let p2 := sets.S0.isEmpty
  let dataContracts := contracts.filter (fun c => strHas c.id "data" || strHas c.stmt "data")
  let p3 := dataContracts.all (fun c =>
    4 ≤ (dataLifecycleTerms.filter (fun t => strHas c.stmt t)).length)
  let p4 := sets.API_weak.isEmpty
  let p5 := scenarios.all (fun s => !s.tests.isEmpty)
  let p6 := components.all (fun c => c.observability) &&
            ixList.all (fun i => i.obs || i.observability)
  let p7 := contracts.all (fun c => c.versioning != "") &&
            css.all (fun c => c.rollout_flag != "")
  let p8 := (ixList.filter (fun i => i.status == "Blocked")).isEmpty
  let total := reqs.length + css.length + scenarios.length
  let incomplete :=
    (reqs.filter (fun n => n.change_specs.isEmpty)).length +
    (css.filter (fun n => !n.simple && n.ix.isEmpty)).length +
    (scenarios.filter (fun n => n.requirements.isEmpty)).length
  let p9 := if total == 0 then true else incomplete == 0
  let allStmts := scenarios.map (fun s => s.stmt) ++ reqs.map (fun r => r.stmt)
  let covered := (coreAreas.filter (fun a => allStmts.any (fun st => strHas st a))).length
  let p10 := 14 ≤ covered
  { P1 := p1, P2 := p2, P3 := p3, P4 := p4, P5 := p5,
    P6 := p6, P7 := p7, P8 := p8, P9 := p9, P10 := p10 }

/-- Test `all(v for k, v in proofs.items() if k != "details")`. -/
def allPassing (p : Proofs) : Bool :=
  p.P1 && p.P2 && p.P3 && p.P4 && p.P5 && p.P6 && p.P7 && p.P8 && p.P9 && p.P10

/-! ## Convergence Controller: `verify_and_repair` -/

/-- How a run ends.  `nameError` models the `UnboundLocalError` raised
by `_generate_output(proofs)` when the local variable `proofs` was never
assigned before the loop exited; otherwise the run returns its report
and the exit status is derived from the proof booleans as `main` does. -/
inductive Outcome where
  | converged
  | exhausted
  | nameError
  deriving DecidableEq, Repr

/-- Observable result of a run.  `reportDeltas` is `output["deltas"]`
(the value of `self.deltas` when `_generate_output` runs); `applied` is
the audit history of every delta actually applied across all passes,
kept here for specification purposes only — the Python code does not
retain it. -/
structure RunOut where
  finalG : Graph
  passes : Nat
  applied : List Delta
  reportDeltas : List Delta
  proofsAtEnd : Option Proofs
  outcome : Outcome
  deriving DecidableEq, Repr

/-- Terminal bookkeeping shared by every exit from the `while` loop. -/
def finish (g : Graph) (passes : Nat) (applied pending : List Delta)
    (pf : Option Proofs) : RunOut :=
  { finalG := g, passes := passes, applied := applied, reportDeltas := pending,
    proofsAtEnd := pf,
    outcome :=
      match pf with
      | none => .nameError
      | some p => if allPassing p then .converged else .exhausted }

/-- The `while iteration < max_iterations` loop of `verify_and_repair`,
by recursion on the remaining budget.  `pending` models `self.deltas`
(appended by emission, cleared by `_apply_deltas`); `pf` models the
local variable `proofs`. -/
def loopGo (g : Graph) (pf : Option Proofs) (applied pending : List Delta)
    (passes : Nat) : Nat → RunOut
  | 0 => finish g passes applied pending pf
  | Nat.succ fuel =>
    let sets := computeSets g
    if totalGaps sets == 0 then
      finish g (passes + 1) applied pending pf
    else
      let ed := emitDeltaBundle g sets
      let pending2 := pending ++ ed.2
      if pending2.isEmpty then
        finish g (passes + 1) applied pending2 (some (runProofs ed.1))
      else
        let g2 := applyDeltas g pending2
        let pf2 := runProofs g2
        let cur := computeSets g2
        let progress :=
          cur.S0.length < sets.S0.length || cur.R0.length < sets.R0.length ||
          cur.C0.length < sets.C0.length ||
          cur.IX_orphan.length < sets.IX_orphan.length ||
          cur.API_weak.length < sets.API_weak.length
        let applied2 := applied ++ pending2
        if !progress then finish g2 (passes + 1) applied2 [] (some pf2)
        else if allPassing pf2 then finish g2 (passes + 1) applied2 [] (some pf2)
        else loopGo g2 (some pf2) applied2 [] (passes + 1) fuel

/-- Method `verify_and_repair(max_iterations)`. -/
def verifyAndRepair (g : Graph) (maxIterations : Nat) : RunOut :=
  loopGo g none [] [] 0 maxIterations

/-! ## Store loading: `PlanGraph.load` and `save_node` -/

/-- Stand-in for `hashlib.md5(name.encode()).hexdigest()[:8]` (library
code outside this repository).  Only determinism and the 8-character
output length are relied upon by the engine. -/
def md5hex8 (s : String) : String :=
  let h := s.data.foldl (fun a c => (a * 131 + c.toNat) % (16 ^ 8)) 7
  ⟨(Nat.toDigits 16 h ++ List.replicate 8 '0').take 8⟩

/-- Character sanitization of `save_node`:
`node_id.replace(':', '-').replace('/', '-').replace('&', '-')`. -/
def sanitizeId (nodeId : String) : String :=
  ⟨nodeId.data.map (fun c => if c == ':' || c == '/' || c == '&' then '-' else c)⟩

/-- The id-to-filename mapping of `save_node` (without the `.json`
suffix): sanitize, and when longer than 200 characters truncate to 180
and append a dash plus 8 hash characters. -/
def safeFilename (nodeId : String) : String :=
  let s := sanitizeId nodeId
  if 200 < s.length then ⟨s.data.take 180⟩ ++ "-" ++ md5hex8 s
  else s

/-- Method `PlanGraph.load`.  A node file is `none` when `json.load`
raises, `some (none, n)` when the parsed record lacks an `id`, and
`some (some nid, n)` otherwise; an edge line is `none` when
`json.loads` raises.  Both failure cases are skipped by an exception
handler whose body is `pass`, so the second component — the list of
warnings the loader records — is built by that handler and is therefore
always empty. -/
def loadStore (dirs : List (String × List (Option (Option String × Node))))
    (edgeLines : List (Option Edge)) : Graph × List String :=
  let g1 := dirs.foldl (fun g td =>
    td.2.foldl (fun g file =>
      match file with
      | none => g
      | some (none, _) => g
      | some (some nid, n) =>
        { g with nodes := dictUpsert g.nodes nid { n with id := nid },
                 nodeByType := byTypeAdd g.nodeByType td.1 nid }) g)
    ({ nodes := [], nodeByType := [], edges := [] } : Graph)
  ({ g1 with edges := edgeLines.filterMap id }, [])

/-! ## Concrete stores used by the theorems -/

/-- The empty store. -/
def emptyGraph : Graph := mkGraph [] []

/-- Store with a scenario whose baseline requirement already exists but
whose requirement-to-changespec link exists only as an `implements`
edge into the requirement: the scenario stays in `S0` across passes. -/
def ce1 : Graph := mkGraph
  [ { id := "scenario:s", type := "Scenario", stmt := "navigation",
      status := "Open", requirements := [], tests := ["test:t1"] },
    { id := "req:s-baseline", type := "Requirement", stmt := "users",
      status := "Open", contracts := ["contract:api-s", "contract:data-s"],
      components := ["component:s"], change_specs := [] },
    { id := "contract:api-s", type := "Contract",
      stmt := "authz rate idempotency timeout error log", status := "Open",
      contract_type := "api", versioning := "semver:minor" },
    { id := "contract:data-s", type := "Contract",
      stmt := "schema migration retention pii", status := "Open",
      contract_type := "data", versioning := "semver:minor" },
    { id := "component:s", type := "Component", stmt := "core component",
      status := "Open", observability := true },
    { id := "change:other", type := "ChangeSpec", stmt := "implement misc",
      status := "Open", implements := [], ix := ["ix:other"],
      rollout_flag := "feature.other" },
    { id := "ix:other", type := "InteractionSpec", stmt := "misc operation",
      status := "Open", depends_on := ["change:other"],
      testMocks := ["Database"], testAcc := ["acceptance"], obs := true } ]
  [ ⟨"change:other", "req:s-baseline", "implements"⟩ ]

/-- Scenario node of store `ce2`: its requirement link exists only as a
store edge, not in the `requirements` attribute. -/
def ce2Scenario : Node :=
  { id := "scenario:x", type := "Scenario", stmt := "navigation",
    status := "Open", requirements := [], tests := ["test:x"] }

/-- Requirement node of store `ce2`. -/
def ce2Req : Node :=
  { id := "req:x", type := "Requirement", stmt := "users", status := "Open",
    change_specs := ["change:x"] }

/-- ChangeSpec node of store `ce2`. -/
def ce2Change : Node :=
  { id := "change:x", type := "ChangeSpec", stmt := "implement x",
    status := "Open", implements := ["req:x"], ix := ["ix:x"],
    rollout_flag := "feature.x" }

/-- InteractionSpec node of store `ce2`. -/
def ce2Ix : Node :=
  { id := "ix:x", type := "InteractionSpec", stmt := "x operation",
    status := "Open", depends_on := ["change:x"],
    testMocks := ["Database"], testAcc := ["acceptance"], obs := true }

/-- Store with a full Scenario-to-InteractionSpec chain whose first hop
exists only as a `traces_to` store edge (no `requirements` attribute). -/
def ce2 : Graph := mkGraph [ce2Scenario, ce2Req, ce2Change, ce2Ix]
  [ ⟨"scenario:x", "req:x", "traces_to"⟩ ]

/-- Store with an orphan InteractionSpec `ix:foo` that references an
existing ChangeSpec only through its own `depends_on` attribute, with no
Scenario above it. -/
def ce3 : Graph := mkGraph
  [ { id := "ix:foo", type := "InteractionSpec", stmt := "foo operation",
      status := "Open", depends_on := ["change:bar"],
      testMocks := ["Database"], testAcc := ["acceptance"], obs := true },
    { id := "change:bar", type := "ChangeSpec", stmt := "implement bar",
      status := "Open", implements := ["req:bar"], ix := [],
      rollout_flag := "feature.bar" },
    { id := "req:bar", type := "Requirement", stmt := "users", status := "Open",
      contracts := ["contract:api-bar", "contract:data-bar"],
      components := ["component:bar"], change_specs := ["change:bar"] },
    { id := "contract:api-bar", type := "Contract",
      stmt := "authz rate idempotency timeout error log", status := "Open",
      contract_type := "api", versioning := "semver:minor" },
    { id := "contract:data-bar", type := "Contract",
      stmt := "schema migration retention pii", status := "Open",
      contract_type := "data", versioning := "semver:minor" },
    { id := "component:bar", type := "Component", stmt := "core component",
      status := "Open", observability := true } ]
  []

/-- Node-file listing of a store containing an unparseable file, a
parsed record without an id, and one good record. -/
def ce9dirs : List (String × List (Option (Option String × Node))) :=
  [("Scenario",
    [none,
     some (none, { stmt := "record without id" }),
     some (some "scenario:ok", { type := "Scenario", stmt := "good record" })])]

/-- Edge-log lines with one unparseable line and one good line. -/
def ce9lines : List (Option Edge) :=
  [none, some ⟨"scenario:ok", "req:ghost", "traces_to"⟩]

/-! ## Specification-side predicates -/

/-- Chain predicate describing exactly what the `S0` computation counts:
the first hop goes through the scenario `requirements` attribute only,
the second through `change_specs` unioned with `implements` edges out of
the requirement, the third through `ix` unioned with `depends_on` edges
into the ChangeSpec; the final id must exist. -/
def s0ChainProp (g : Graph) (s : Node) : Prop :=
  ∃ rid ∈ s.requirements, ∃ req, g.getNode rid = some req ∧
    ∃ cid ∈ s0CsIds g rid req, ∃ cs, g.getNode cid = some cs ∧
      ∃ ixid ∈ csIxIds g cs, g.hasNode ixid = true

/-- Attribute-only chain predicate describing exactly what the
`IX_orphan` computation treats as reachable. -/
def ixAttrChainProp (g : Graph) (ixid : String) : Prop :=
  ∃ s ∈ g.getNodesByType "Scenario", ∃ rid ∈ s.requirements,
    ∃ req, g.getNode rid = some req ∧ ∃ cid ∈ req.change_specs,
      ∃ cs, g.getNode cid = some cs ∧ ixid ∈ cs.ix ∧ g.hasNode ixid = true

/-- Modelled from the spec: the union-of-attributes-and-edges
reachability the specification claims for P2/`S0`/`IX_orphan` — at every
hop of Scenario→Requirement→ChangeSpec→InteractionSpec either the
attribute-list reference or a store edge suffices.  This is the
refinement comparison definition; the engine-side computations are
`computeS0` and `computeIXOrphan`. -/
def specReach (g : Graph) (sid ixid : String) : Prop :=
  ∃ s, g.getNode sid = some s ∧ s.type = "Scenario" ∧
  ∃ rid, (rid ∈ s.requirements ∨ ∃ e ∈ g.edges, e.src = sid ∧ e.tgt = rid) ∧
  ∃ req, g.getNode rid = some req ∧ req.type = "Requirement" ∧
  ∃ cid, (cid ∈ req.change_specs ∨
          ∃ e ∈ g.edges, (e.src = rid ∧ e.tgt = cid) ∨
                         (e.src = cid ∧ e.tgt = rid ∧ e.etype = "implements")) ∧
  ∃ cs, g.getNode cid = some cs ∧ cs.type = "ChangeSpec" ∧
  (ixid ∈ cs.ix ∨ ∃ e ∈ g.edges, e.src = ixid ∧ e.tgt = cid ∧ e.etype = "depends_on") ∧
  g.hasNode ixid = true

/-- Test for an additive delta (node or edge addition, not an update). -/
def isAddDelta : Delta → Bool
  | .add_node _ => true
  | .add_edge _ _ _ => true
  | .update_node _ => false

/-- Edge-list evolution of the second pass of `_apply_deltas`, as a
function of the edge list alone. -/
def edgesAfter (es : List Edge) : List Delta → List Edge
  | [] => es
  | Delta.add_edge s t ty :: ds =>
    edgesAfter
      (if es.any (fun e => e.src == s && e.tgt == t && e.etype == ty) then es
       else es ++ [⟨s, t, ty⟩]) ds
  | _ :: ds => edgesAfter es ds

/-- The conclusion of the phase-E theorem, at a given statement: the old
statement is an unmodified prefix of the new one, something is appended,
each of the six vocabulary fragments is appended exactly when its
keyword test fails on the old statement, and re-application changes
nothing (no enhancements remain and the contract is no longer
API-weak). -/
def phaseEConclusion (stmt : String) : Prop :=
  (∃ rest, eNewStmt stmt = stmt ++ rest) ∧
  eEnhancements stmt ≠ [] ∧
  ("AUTHZ(scopes)" ∈ eEnhancements stmt ↔ strHas stmt "authz" = false) ∧
  ("RATE LIMIT(quota tier)" ∈ eEnhancements stmt ↔
    (strHas stmt "rate" || strHas stmt "quota") = false) ∧
  ("IDEMPOTENCY(key)" ∈ eEnhancements stmt ↔ strHas stmt "idempotency" = false) ∧
  ("TIMEOUTS(ms)" ∈ eEnhancements stmt ↔ strHas stmt "timeout" = false) ∧
  ("ERROR TAXONOMY(codes)" ∈ eEnhancements stmt ↔
    (strHas stmt "error" || strHas stmt "taxonomy") = false) ∧
  ("OBSERVABILITY(logs/metrics/spans)" ∈ eEnhancements stmt ↔
    (strHas stmt "observability" || strHas stmt "log" || strHas stmt "metric") = false) ∧
  eEnhancements (eNewStmt stmt) = [] ∧
  apiMissingCount (eNewStmt stmt) = 0

/-! ## Helper lemmas -/

theorem str_data_append (a b : String) : (a ++ b).data = a.data ++ b.data := rfl

theorem strHas_append_left {s pat : String} (t : String) (h : strHas s pat = true) :
    strHas (s ++ t) pat = true := by
  simp only [strHas, decide_eq_true_eq] at h ⊢
  rw [str_data_append, List.map_append]
  exact h.trans (List.prefix_append _ _).isInfix

theorem strHas_append_right {t pat : String} (s : String) (h : strHas t pat = true) :
    strHas (s ++ t) pat = true := by
  simp only [strHas, decide_eq_true_eq] at h ⊢
  rw [str_data_append, List.map_append]
  exact h.trans (List.suffix_append _ _).isInfix

theorem strHas_joinComma {x pat : String} (l : List String)
    (hx : x ∈ l) (h : strHas x pat = true) : strHas (joinComma l) pat = true := by
  induction l with
  | nil => cases hx
  | cons y ys ih =>
    cases ys with
    | nil =>
      rw [List.mem_singleton] at hx
      subst hx
      exact h
    | cons z zs =>
      rcases List.mem_cons.mp hx with hx | hx
      · subst hx
        exact strHas_append_left _ (strHas_append_left _ h)
      · exact strHas_append_right _ (ih hx)

theorem md5hex8_length (s : String) : (md5hex8 s).length = 8 := by
  show ((Nat.toDigits 16 _ ++ List.replicate 8 '0').take 8).length = 8
  rw [List.length_take, List.length_append, List.length_replicate]
  omega

theorem loopGo_reportDeltas (fuel : Nat) :
    ∀ (g : Graph) (pf : Option Proofs) (applied : List Delta) (passes : Nat),
      (loopGo g pf applied [] passes fuel).reportDeltas = [] := by
  induction fuel with
  | zero => intro g pf a ps; rfl
  | succ n ih =>
    intro g pf a ps
    simp only [loopGo]
    split
    · rfl
    · split
      · rename_i hempty
        simp only [finish]
        exact List.isEmpty_iff.mp hempty
      · split
        · rfl
        · split
          · rfl
          · exact ih _ _ _ _

theorem loopGo_passes_le (fuel : Nat) :
    ∀ (g : Graph) (pf : Option Proofs) (applied pending : List Delta) (passes : Nat),
      (loopGo g pf applied pending passes fuel).passes ≤ passes + fuel := by
  induction fuel with
  | zero => intro g pf a p ps; simp [loopGo, finish]
  | succ n ih =>
    intro g pf a p ps
    simp only [loopGo]
    split
    · simp only [finish]; omega
    · split
      · simp only [finish]; omega
      · split
        · simp only [finish]; omega
        · split
          · simp only [finish]; omega
          · exact le_trans (ih _ _ _ _ _) (by omega)

theorem loopGo_ne_nameError (fuel : Nat) :
    ∀ (g : Graph) (p : Proofs) (applied pending : List Delta) (passes : Nat),
      (loopGo g (some p) applied pending passes fuel).outcome ≠ Outcome.nameError := by
  induction fuel with
  | zero =>
    intro g p a pd ps
    simp only [loopGo, finish]
    split <;> simp
  | succ n ih =>
    intro g p a pd ps
    simp only [loopGo]
    split
    · simp only [finish]; split <;> simp
    · split
      · simp only [finish]; split <;> simp
      · split
        · simp only [finish]; split <;> simp
        · split
          · simp only [finish]; split <;> simp
          · exact ih _ _ _ _ _

/-! ## Claim C1: idempotence of the full repair loop -/

/-- Claim C1, counterexample: on store `ce1` the first run reaches a
terminal state after one pass, yet a second run on the resulting store
emits and applies further deltas (phase A unconditionally re-appends the
baseline requirement id to the scenario) and changes the graph content.
This refutes the claim that a second run always produces zero deltas and
identical content. -/
theorem C1_counterexample :
    (verifyAndRepair (verifyAndRepair ce1 10).finalG 10).applied ≠ [] ∧
    (verifyAndRepair (verifyAndRepair ce1 10).finalG 10).finalG ≠
      (verifyAndRepair ce1 10).finalG := by
  constructor <;> decide

/-- Claim C1 (amended): the second run is a no-op only for the two
delta-free terminal conditions — when the store has zero total gaps, or
when the emission on the store produces zero deltas, a run applies
nothing and leaves the graph content unchanged. -/
theorem C1_amended (g : Graph) (n : Nat)
    (h : totalGaps (computeSets g) = 0 ∨ (emitDeltaBundle g (computeSets g)).2 = []) :
    (verifyAndRepair g n).applied = [] ∧ (verifyAndRepair g n).finalG = g := by
  cases n with
  | zero => exact ⟨rfl, rfl⟩
  | succ m =>
    simp only [verifyAndRepair, loopGo]
    by_cases h0 : totalGaps (computeSets g) = 0
    · simp [h0, finish]
    · rcases h with h | h
      · exact absurd h h0
      · simp [h0, h, finish]

/-- Claim C1, witness for the amended theorem at the empty store. -/
theorem C1_amended_witness :
    totalGaps (computeSets emptyGraph) = 0 ∧
    ((verifyAndRepair emptyGraph 10).applied = [] ∧
      (verifyAndRepair emptyGraph 10).finalG = emptyGraph) :=
  ⟨by decide, C1_amended emptyGraph 10 (Or.inl (by decide))⟩

/-! ## Claim C4: bounded termination of the controller -/

/-- Claim C4, counterexample: on the empty store the run breaks out of
the first pass with zero gaps before the `proofs` local is assigned, and
`_generate_output(proofs)` raises `UnboundLocalError` — the run does not
end in a terminal report. -/
theorem C4_counterexample :
    (verifyAndRepair emptyGraph 10).outcome = Outcome.nameError := by decide

/-- Claim C4 (amended): for every store and budget the loop executes at
most the budgeted number of passes and terminates; it ends in an
unbound-variable error exactly when the budget is zero or the first pass
finds zero total gaps (before any proofs were computed), and otherwise
in one of the terminal outcomes derived from the proof booleans. -/
theorem C4_amended (g : Graph) (n : Nat) :
    (verifyAndRepair g n).passes ≤ n ∧
    ((verifyAndRepair g n).outcome = Outcome.nameError ↔
      n = 0 ∨ totalGaps (computeSets g) = 0) := by
  constructor
  · simpa using loopGo_passes_le n g none [] [] 0
  · cases n with
    | zero => simp [verifyAndRepair, loopGo, finish]
    | succ m =>
      simp only [verifyAndRepair, loopGo]
      by_cases h0 : totalGaps (computeSets g) = 0
      · simp [h0, finish]
      · have hne : ¬ (totalGaps (computeSets g) == 0) = true := by
          simp [h0]
        rw [if_neg hne]
        constructor
        · intro hcontra
          exfalso
          revert hcontra
          split
          · simp only [finish]; split <;> simp
          · split
            · simp only [finish]; split <;> simp
            · split
              · simp only [finish]; split <;> simp
              · exact loopGo_ne_nameError m _ _ _ _ _
        · rintro (h | h)
          · exact absurd h (Nat.succ_ne_zero m)
          · exact absurd h h0

/-! ## Claim C5: audit completeness of the terminal report -/

/-- Claim C5, counterexample: the run on store `ce3` applies seven
deltas across its passes, yet the `deltas` list in its terminal report
is empty — the report does not contain the deltas applied across
passes. -/
theorem C5_counterexample :
    (verifyAndRepair ce3 10).applied ≠ [] ∧
    (verifyAndRepair ce3 10).reportDeltas = [] := by
  constructor <;> decide

/-- Claim C5 (amended): whatever the store and budget, the `deltas`
field of the terminal report is always empty — `_apply_deltas` clears
`self.deltas` when it applies them and nothing accumulates the applied
deltas for the report. -/
theorem C5_amended (g : Graph) (n : Nat) :
    (verifyAndRepair g n).reportDeltas = [] :=
  loopGo_reportDeltas n g none [] 0

/-! ## Claim C7: collision-safe, length-bounded storage keys -/

/-- Claim C7, counterexample: the distinct node ids `a:b` and `a-b` are
mapped to the same storage filename by `save_node`, so the mapping is
not collision-safe. -/
theorem C7_counterexample :
    safeFilename "a:b" = safeFilename "a-b" ∧ ("a:b" : String) ≠ "a-b" := by
  constructor <;> decide

/-- Claim C7 (amended): the filename mapping is length-bounded (never
more than 200 characters before the `.json` suffix, with a hash suffix
added on truncation), but it is not injective: distinct ids exist that
collide on the same filename, and no content-hash is added on
collision. -/
theorem C7_amended :
    (∀ nodeId : String, (safeFilename nodeId).length ≤ 200) ∧
    ∃ a b : String, a ≠ b ∧ safeFilename a = safeFilename b := by
  constructor
  · intro nid
    simp only [safeFilename]
    split
    · rw [String.length_append, String.length_append, md5hex8_length]
      have h1 : (String.mk ((sanitizeId nid).data.take 180)).length ≤ 180 := by
        show ((sanitizeId nid).data.take 180).length ≤ 180
        rw [List.length_take]
        omega
      have h2 : ("-" : String).length = 1 := rfl
      omega
    · rename_i hle
      omega
  · exact ⟨"a:b", "a-b", by decide, by decide⟩

/-! ## Claim C10: per-pass cap on orphan reattachment -/

/-- Claim C10: phase D processes only the first 100 elements of the
orphan list — appending any further orphans beyond a length-100 list
changes nothing about the emitted deltas. -/
theorem C10_cap (g : Graph) (l1 l2 : List String) (h : l1.length = 100) :
    phaseD g (l1 ++ l2) = phaseD g l1 := by
  unfold phaseD
  rw [← h, List.take_left, List.take_length]

/-- Claim C10, witness at a concrete length-100 orphan list. -/
theorem C10_witness :
    (List.replicate 100 "ix:a").length = 100 ∧
    phaseD emptyGraph (List.replicate 100 "ix:a" ++ ["ix:b"]) =
      phaseD emptyGraph (List.replicate 100 "ix:a") :=
  ⟨List.length_replicate 100 "ix:a",
   C10_cap emptyGraph _ _ (List.length_replicate 100 "ix:a")⟩

/-! ## Claim C8: edge-log invariant -/

theorem addNodeStep_edges (g : Graph) (d : Delta) : (addNodeStep g d).edges = g.edges := by
  cases d <;> rfl

theorem updateStep_edges (g : Graph) (d : Delta) : (updateStep g d).edges = g.edges := by
  cases d <;> rfl

theorem applyAddNodes_edges : ∀ (ds : List Delta) (g : Graph),
    (applyAddNodes g ds).edges = g.edges
  | [], _ => rfl
  | d :: ds, g => by
    show (applyAddNodes (addNodeStep g d) ds).edges = g.edges
    rw [applyAddNodes_edges ds, addNodeStep_edges]

theorem applyUpdates_edges : ∀ (ds : List Delta) (g : Graph),
    (applyUpdates g ds).edges = g.edges
  | [], _ => rfl
  | d :: ds, g => by
    show (applyUpdates (updateStep g d) ds).edges = g.edges
    rw [applyUpdates_edges ds, updateStep_edges]

theorem edgeStep_edges (g : Graph) (s t ty : String) :
    (edgeStep g (Delta.add_edge s t ty)).edges =
    if g.edges.any (fun e => e.src == s && e.tgt == t && e.etype == ty) then g.edges
    else g.edges ++ [⟨s, t, ty⟩] := by
  show (if g.edges.any (fun e => e.src == s && e.tgt == t && e.etype == ty) then g
        else { g with edges := g.edges ++ [⟨s, t, ty⟩] }).edges = _
  split <;> rfl

theorem applyEdges_eq_edgesAfter : ∀ (ds : List Delta) (g : Graph),
    (applyEdges g ds).edges = edgesAfter g.edges ds
  | [], _ => rfl
  | Delta.add_node n :: ds, g => by
    show (applyEdges g ds).edges = edgesAfter g.edges ds
    exact applyEdges_eq_edgesAfter ds g
  | Delta.update_node n :: ds, g => by
    show (applyEdges g ds).edges = edgesAfter g.edges ds
    exact applyEdges_eq_edgesAfter ds g
  | Delta.add_edge s t ty :: ds, g => by
    show (applyEdges (edgeStep g (Delta.add_edge s t ty)) ds).edges = _
    rw [applyEdges_eq_edgesAfter ds, edgeStep_edges]
    rfl

theorem applyDeltas_edges (g : Graph) (ds : List Delta) :
    (applyDeltas g ds).edges = edgesAfter g.edges ds := by
  unfold applyDeltas
  rw [applyUpdates_edges, applyEdges_eq_edgesAfter, applyAddNodes_edges]

theorem edgesAfter_extends : ∀ (ds : List Delta) (es : List Edge),
    es <+: edgesAfter es ds
  | [], es => List.prefix_refl es
  | Delta.add_node n :: ds, es => edgesAfter_extends ds es
  | Delta.update_node n :: ds, es => edgesAfter_extends ds es
  | Delta.add_edge s t ty :: ds, es => by
    show es <+: edgesAfter
      (if es.any (fun e => e.src == s && e.tgt == t && e.etype == ty) then es
       else es ++ [⟨s, t, ty⟩]) ds
    split
    · exact edgesAfter_extends ds es
    · exact (List.prefix_append es _).trans (edgesAfter_extends ds _)

theorem edgesAfter_nodup : ∀ (ds : List Delta) (es : List Edge),
    es.Nodup → (edgesAfter es ds).Nodup
  | [], _, h => h
  | Delta.add_node n :: ds, es, h => edgesAfter_nodup ds es h
  | Delta.update_node n :: ds, es, h => edgesAfter_nodup ds es h
  | Delta.add_edge s t ty :: ds, es, h => by
    show (edgesAfter
      (if es.any (fun e => e.src == s && e.tgt == t && e.etype == ty) then es
       else es ++ [⟨s, t, ty⟩]) ds).Nodup
    split
    · exact edgesAfter_nodup ds es h
    · rename_i hany
      apply edgesAfter_nodup ds
      rw [List.nodup_append]
      refine ⟨h, List.nodup_singleton _, ?_⟩
      intro e he hmem
      rw [List.mem_singleton] at hmem
      subst hmem
      apply hany
      rw [List.any_eq_true]
      exact ⟨_, he, by simp⟩

/-- Claim C8: a pass never removes an edge (the pre-pass edge list is a
prefix of the post-pass edge list), a duplicate-free edge list stays
duplicate-free (duplicate `add_edge` deltas are suppressed), and
applying an `add_edge` delta whose `(from, to, type)` triple already
exists leaves the edge list unchanged. -/
theorem C8_edges (g : Graph) (h : g.edges.Nodup) :
    g.edges <+: (runPass g).1.edges ∧ (runPass g).1.edges.Nodup ∧
    ∀ e ∈ g.edges,
      (applyDeltas g [Delta.add_edge e.src e.tgt e.etype]).edges = g.edges := by
  refine ⟨?_, ?_, ?_⟩
  · show g.edges <+: (applyDeltas g _).edges
    rw [applyDeltas_edges]
    exact edgesAfter_extends _ _
  · show ((applyDeltas g _).edges).Nodup
    rw [applyDeltas_edges]
    exact edgesAfter_nodup _ _ h
  · intro e he
    rw [applyDeltas_edges]
    show edgesAfter
      (if g.edges.any (fun x => x.src == e.src && x.tgt == e.tgt && x.etype == e.etype)
       then g.edges else g.edges ++ [⟨e.src, e.tgt, e.etype⟩]) [] = g.edges
    rw [if_pos]
    · rfl
    · rw [List.any_eq_true]
      exact ⟨e, he, by simp⟩

/-- Claim C8, witness at store `ce1` (duplicate-free edge list). -/
theorem C8_witness :
    ce1.edges.Nodup ∧
    (ce1.edges <+: (runPass ce1).1.edges ∧ (runPass ce1).1.edges.Nodup ∧
      ∀ e ∈ ce1.edges,
        (applyDeltas ce1 [Delta.add_edge e.src e.tgt e.etype]).edges = ce1.edges) :=
  ⟨by decide, C8_edges ce1 (by decide)⟩

/-! ## Claim C3: phase D repairs orphans completely -/

theorem phaseDIx_adds (g : Graph) (acc : List Delta) (ixId : String) :
    ∀ d ∈ phaseDIx g acc ixId, d ∈ acc ∨ isAddDelta d = true := by
  intro d hd
  unfold phaseDIx at hd
  simp only [] at hd
  repeat' split at hd
  all_goals first
    | exact Or.inl hd
    | (rcases List.mem_append.mp hd with h | h <;>
        first
          | exact Or.inl h
          | (right; fin_cases h <;> rfl))

theorem phaseD_adds (g : Graph) (orphans : List String) :
    ∀ d ∈ phaseD g orphans, isAddDelta d = true := by
  have key : ∀ (l : List String) (acc : List Delta),
      (∀ d ∈ acc, isAddDelta d = true) →
      ∀ d ∈ l.foldl (phaseDIx g) acc, isAddDelta d = true := by
    intro l
    induction l with
    | nil => intro acc hacc d hd; exact hacc d hd
    | cons x xs ih =>
      intro acc hacc d hd
      refine ih (phaseDIx g acc x) ?_ d hd
      intro d2 hd2
      rcases phaseDIx_adds g acc x d2 hd2 with h | h
      · exact hacc d2 h
      · exact h
  exact key (orphans.take 100) [] (by intro d hd; cases hd)

/-- Claim C3, counterexample: in store `ce3` the InteractionSpec
`ix:foo` references the existing ChangeSpec `change:bar` only through
its own `depends_on` attribute and has no Scenario chain above it; it is
in `IX_orphan`, and after applying the full pass (including the phase D
deltas) it is still in `IX_orphan` on re-analysis — it does not become
reachable. -/
theorem C3_counterexample :
    "ix:foo" ∈ (computeSets ce3).IX_orphan ∧
    "ix:foo" ∈ (computeSets (runPass ce3).1).IX_orphan := by
  constructor <;> decide

/-- Claim C3 (amended): phase D only adds nodes and edges — it never
emits an `update_node` delta, so it cannot complete the attribute-list
chains that the orphan computation requires; consequently an orphan such
as `ix:foo` in `ce3` remains in `IX_orphan` after the pass. -/
theorem C3_amended :
    (∀ (g : Graph) (orphans : List String),
      ∀ d ∈ phaseD g orphans, isAddDelta d = true) ∧
    "ix:foo" ∈ (computeSets (runPass ce3).1).IX_orphan := by
  exact ⟨fun g orphans => phaseD_adds g orphans, by decide⟩

/-- Claim C3, witness for the amended theorem at a concrete phase-D
delta. -/
theorem C3_amended_witness :
    Delta.add_edge "scenario:bar" "req:bar" "traces_to" ∈ phaseD ce3 ["ix:foo"] ∧
    isAddDelta (Delta.add_edge "scenario:bar" "req:bar" "traces_to") = true :=
  ⟨by decide, C3_amended.1 ce3 ["ix:foo"] _ (by decide)⟩

/-! ## Claim C2: reachability union rule -/

theorem validIxCount_eq_zero (g : Graph) (cs : Node) :
    validIxCount g cs = 0 ↔ ∀ ixid ∈ csIxIds g cs, ¬ g.hasNode ixid = true := by
  unfold validIxCount
  rw [List.length_eq_zero, List.filter_eq_nil_iff]

theorem s0ReqCount_eq_zero (g : Graph) (rid : String) :
    s0ReqCount g rid = 0 ↔
    ∀ req, g.getNode rid = some req →
      ∀ cid ∈ s0CsIds g rid req, ∀ cs, g.getNode cid = some cs →
        validIxCount g cs = 0 := by
  unfold s0ReqCount
  cases h : g.getNode rid with
  | none => simp
  | some req =>
    rw [List.sum_eq_zero_iff]
    constructor
    · intro hall req2 hreq2 cid hcid cs hcs
      injection hreq2 with he
      subst he
      apply hall
      rw [List.mem_map]
      refine ⟨cs, ?_, rfl⟩
      rw [List.mem_filterMap]
      exact ⟨cid, hcid, hcs⟩
    · intro hall x hx
      rw [List.mem_map] at hx
      obtain ⟨cs, hcs, rfl⟩ := hx
      rw [List.mem_filterMap] at hcs
      obtain ⟨cid, hcid, hg⟩ := hcs
      exact hall req rfl cid hcid cs hg

theorem s0ScenarioIxCount_eq_zero (g : Graph) (s : Node) :
    s0ScenarioIxCount g s = 0 ↔ ¬ s0ChainProp g s := by
  unfold s0ScenarioIxCount s0ChainProp
  rw [List.sum_eq_zero_iff]
  constructor
  · intro hall hchain
    obtain ⟨rid, hrid, req, hreq, cid, hcid, cs, hcs, ixid, hix, hhas⟩ := hchain
    have h0 : s0ReqCount g rid = 0 := by
      apply hall
      rw [List.mem_map]
      exact ⟨rid, hrid, rfl⟩
    rw [s0ReqCount_eq_zero] at h0
    have h1 := (validIxCount_eq_zero g cs).mp (h0 req hreq cid hcid cs hcs) ixid hix
    exact h1 hhas
  · intro hnc x hx
    rw [List.mem_map] at hx
    obtain ⟨rid, hrid, rfl⟩ := hx
    rw [s0ReqCount_eq_zero]
    intro req hreq cid hcid cs hcs
    rw [validIxCount_eq_zero]
    intro ixid hix hhas
    exact hnc ⟨rid, hrid, req, hreq, cid, hcid, cs, hcs, ixid, hix, hhas⟩

theorem mem_computeS0 (g : Graph) (sid : String) :
    sid ∈ computeS0 g ↔
    ∃ s ∈ g.getNodesByType "Scenario", s.id = sid ∧ ¬ s0ChainProp g s := by
  unfold computeS0
  rw [List.mem_filterMap]
  constructor
  · rintro ⟨s, hs, hsome⟩
    by_cases h0 : s0ScenarioIxCount g s = 0
    · rw [if_pos (by simp [h0])] at hsome
      injection hsome with he
      exact ⟨s, hs, he, (s0ScenarioIxCount_eq_zero g s).mp h0⟩
    · rw [if_neg (by simp [h0])] at hsome
      cases hsome
  · rintro ⟨s, hs, hid, hnc⟩
    refine ⟨s, hs, ?_⟩
    have h0 := (s0ScenarioIxCount_eq_zero g s).mpr hnc
    rw [if_pos (by simp [h0]), hid]

theorem mem_reachableIX (g : Graph) (ixid : String) :
    ixid ∈ reachableIX g ↔ ixAttrChainProp g ixid := by
  unfold reachableIX ixAttrChainProp
  rw [List.mem_flatMap]
  constructor
  · rintro ⟨s, hs, hmem⟩
    rw [List.mem_flatMap] at hmem
    obtain ⟨rid, hrid, hmem⟩ := hmem
    cases h : g.getNode rid with
    | none => rw [h] at hmem; cases hmem
    | some req =>
      rw [h] at hmem
      rw [List.mem_flatMap] at hmem
      obtain ⟨cid, hcid, hmem⟩ := hmem
      cases h2 : g.getNode cid with
      | none => rw [h2] at hmem; cases hmem
      | some cs =>
        rw [h2] at hmem
        rw [List.mem_filter] at hmem
        exact ⟨s, hs, rid, hrid, req, h, cid, hcid, cs, h2, hmem.1, hmem.2⟩
  · rintro ⟨s, hs, rid, hrid, req, hreq, cid, hcid, cs, hcs, hix, hhas⟩
    refine ⟨s, hs, ?_⟩
    rw [List.mem_flatMap]
    refine ⟨rid, hrid, ?_⟩
    rw [hreq]
    rw [List.mem_flatMap]
    refine ⟨cid, hcid, ?_⟩
    rw [hcs]
    rw [List.mem_filter]
    exact ⟨hix, hhas⟩

theorem mem_computeIXOrphan (g : Graph) (ixid : String) :
    ixid ∈ computeIXOrphan g ↔
    (∃ ixn ∈ g.getNodesByType "InteractionSpec", ixn.id = ixid) ∧
      ¬ ixAttrChainProp g ixid := by
  unfold computeIXOrphan
  rw [List.mem_filterMap]
  constructor
  · rintro ⟨ixn, hixn, hsome⟩
    by_cases hc : ixn.id ∈ reachableIX g
    · rw [if_pos (by simp [List.contains, List.elem_iff, hc])] at hsome
      cases hsome
    · rw [if_neg (by simp [List.contains, List.elem_iff, hc])] at hsome
      injection hsome with he
      subst he
      exact ⟨⟨ixn, hixn, rfl⟩, fun hchain => hc ((mem_reachableIX g ixn.id).mpr hchain)⟩
  · rintro ⟨⟨ixn, hixn, hid⟩, hnc⟩
    subst hid
    refine ⟨ixn, hixn, ?_⟩
    have hc : ¬ ixn.id ∈ reachableIX g := fun h => hnc ((mem_reachableIX g ixn.id).mp h)
    rw [if_neg (by simp [List.contains, List.elem_iff, hc])]

/-- Claim C2 (amended): the analyzer does not union attributes and edges
at every hop.  A scenario is in `S0` exactly when no chain exists whose
first hop goes through the scenario `requirements` attribute only, whose
second hop unions `change_specs` with `implements` edges out of the
requirement, and whose third hop unions `ix` with `depends_on` edges
into the ChangeSpec; and an InteractionSpec is in `IX_orphan` exactly
when it is not reachable through a pure attribute-list chain (no edges
are consulted at any hop of the orphan computation). -/
theorem C2_amended :
    (∀ (g : Graph) (sid : String), sid ∈ (computeSets g).S0 ↔
      ∃ s ∈ g.getNodesByType "Scenario", s.id = sid ∧ ¬ s0ChainProp g s) ∧
    (∀ (g : Graph) (ixid : String), ixid ∈ (computeSets g).IX_orphan ↔
      (∃ ixn ∈ g.getNodesByType "InteractionSpec", ixn.id = ixid) ∧
        ¬ ixAttrChainProp g ixid) :=
  ⟨fun g sid => mem_computeS0 g sid, fun g ixid => mem_computeIXOrphan g ixid⟩

/-- Claim C2, counterexample: in store `ce2` the union of attribute
lists and store edges contains a full
Scenario→Requirement→ChangeSpec→InteractionSpec path (the first hop is
recorded only as a `traces_to` edge), yet the analyzer reports the
scenario in `S0` and the InteractionSpec in `IX_orphan` — an edge-only
hop does not suffice. -/
theorem C2_counterexample :
    specReach ce2 "scenario:x" "ix:x" ∧
    "scenario:x" ∈ (computeSets ce2).S0 ∧
    "ix:x" ∈ (computeSets ce2).IX_orphan := by
  refine ⟨?_, by decide, by decide⟩
  refine ⟨ce2Scenario, by decide, rfl, "req:x",
    Or.inr ⟨⟨"scenario:x", "req:x", "traces_to"⟩, by decide, rfl, rfl⟩,
    ce2Req, by decide, rfl, "change:x", Or.inl (by decide),
    ce2Change, by decide, rfl, Or.inl (by decide), by decide⟩

/-! ## Claim C6: append-only contract hardening -/

theorem mem_ite_nil_singleton {c : Bool} {x t : String} :
    x ∈ (if c then ([] : List String) else [t]) ↔ c = false ∧ x = t := by
  cases c <;> simp

theorem strHas_eNewStmt_left {stmt pat : String} (h : strHas stmt pat = true) :
    strHas (eNewStmt stmt) pat = true := by
  show strHas (stmt ++ " (" ++ joinComma (eEnhancements stmt) ++ ")") pat = true
  exact strHas_append_left _ (strHas_append_left _ (strHas_append_left _ h))

theorem strHas_eNewStmt_of_mem {stmt x pat : String} (hx : x ∈ eEnhancements stmt)
    (h : strHas x pat = true) : strHas (eNewStmt stmt) pat = true := by
  show strHas (stmt ++ " (" ++ joinComma (eEnhancements stmt) ++ ")") pat = true
  exact strHas_append_left _ (strHas_append_right _ (strHas_joinComma _ hx h))

theorem mem_eEnhancements_authz (stmt : String) :
    "AUTHZ(scopes)" ∈ eEnhancements stmt ↔ strHas stmt "authz" = false := by
  simp [eEnhancements, List.mem_append, mem_ite_nil_singleton]

theorem mem_eEnhancements_rate (stmt : String) :
    "RATE LIMIT(quota tier)" ∈ eEnhancements stmt ↔
      (strHas stmt "rate" || strHas stmt "quota") = false := by
  simp [eEnhancements, List.mem_append, mem_ite_nil_singleton]

theorem mem_eEnhancements_idem (stmt : String) :
    "IDEMPOTENCY(key)" ∈ eEnhancements stmt ↔ strHas stmt "idempotency" = false := by
  simp [eEnhancements, List.mem_append, mem_ite_nil_singleton]

theorem mem_eEnhancements_timeout (stmt : String) :
    "TIMEOUTS(ms)" ∈ eEnhancements stmt ↔ strHas stmt "timeout" = false := by
  simp [eEnhancements, List.mem_append, mem_ite_nil_singleton]

theorem mem_eEnhancements_error (stmt : String) :
    "ERROR TAXONOMY(codes)" ∈ eEnhancements stmt ↔
      (strHas stmt "error" || strHas stmt "taxonomy") = false := by
  simp [eEnhancements, List.mem_append, mem_ite_nil_singleton]

theorem mem_eEnhancements_obs (stmt : String) :
    "OBSERVABILITY(logs/metrics/spans)" ∈ eEnhancements stmt ↔
      (strHas stmt "observability" || strHas stmt "log" || strHas stmt "metric") = false := by
  simp [eEnhancements, List.mem_append, mem_ite_nil_singleton]

theorem eNew_authz (stmt : String) : strHas (eNewStmt stmt) "authz" = true := by
  by_cases h : strHas stmt "authz" = true
  · exact strHas_eNewStmt_left h
  · rw [Bool.not_eq_true] at h
    exact strHas_eNewStmt_of_mem ((mem_eEnhancements_authz stmt).mpr h) (by decide)

theorem eNew_rate (stmt : String) :
    (strHas (eNewStmt stmt) "rate" || strHas (eNewStmt stmt) "quota") = true := by
  by_cases h : (strHas stmt "rate" || strHas stmt "quota") = true
  · rw [Bool.or_eq_true] at h ⊢
    rcases h with h | h
    · exact Or.inl (strHas_eNewStmt_left h)
    · exact Or.inr (strHas_eNewStmt_left h)
  · rw [Bool.not_eq_true] at h
    rw [Bool.or_eq_true]
    exact Or.inl (strHas_eNewStmt_of_mem ((mem_eEnhancements_rate stmt).mpr h) (by decide))

theorem eNew_idem (stmt : String) : strHas (eNewStmt stmt) "idempotency" = true := by
  by_cases h : strHas stmt "idempotency" = true
  · exact strHas_eNewStmt_left h
  · rw [Bool.not_eq_true] at h
    exact strHas_eNewStmt_of_mem ((mem_eEnhancements_idem stmt).mpr h) (by decide)

theorem eNew_timeout (stmt : String) : strHas (eNewStmt stmt) "timeout" = true := by
  by_cases h : strHas stmt "timeout" = true
  · exact strHas_eNewStmt_left h
  · rw [Bool.not_eq_true] at h
    exact strHas_eNewStmt_of_mem ((mem_eEnhancements_timeout stmt).mpr h) (by decide)

theorem eNew_error (stmt : String) :
    (strHas (eNewStmt stmt) "error" || strHas (eNewStmt stmt) "taxonomy") = true := by
  by_cases h : (strHas stmt "error" || strHas stmt "taxonomy") = true
  · rw [Bool.or_eq_true] at h ⊢
    rcases h with h | h
    · exact Or.inl (strHas_eNewStmt_left h)
    · exact Or.inr (strHas_eNewStmt_left h)
  · rw [Bool.not_eq_true] at h
    rw [Bool.or_eq_true]
    exact Or.inl (strHas_eNewStmt_of_mem ((mem_eEnhancements_error stmt).mpr h) (by decide))

theorem eNew_obs (stmt : String) :
    (strHas (eNewStmt stmt) "observability" || strHas (eNewStmt stmt) "log" ||
      strHas (eNewStmt stmt) "metric") = true := by
  by_cases h : (strHas stmt "observability" || strHas stmt "log" ||
      strHas stmt "metric") = true
  · simp only [Bool.or_eq_true] at h ⊢
    rcases h with (h | h) | h
    · exact Or.inl (Or.inl (strHas_eNewStmt_left h))
    · exact Or.inl (Or.inr (strHas_eNewStmt_left h))
    · exact Or.inr (strHas_eNewStmt_left h)
  · rw [Bool.not_eq_true] at h
    simp only [Bool.or_eq_true]
    exact Or.inl (Or.inl
      (strHas_eNewStmt_of_mem ((mem_eEnhancements_obs stmt).mpr h) (by decide)))

theorem eEnhancements_eNewStmt (stmt : String) : eEnhancements (eNewStmt stmt) = [] := by
  have h1 := eNew_authz stmt
  have h2 := eNew_rate stmt
  have h3 := eNew_idem stmt
  have h4 := eNew_timeout stmt
  have h5 := eNew_error stmt
  have h6 := eNew_obs stmt
  simp [eEnhancements, h1, h2, h3, h4, h5, h6]

theorem apiMissingCount_eNewStmt (stmt : String) : apiMissingCount (eNewStmt stmt) = 0 := by
  have h1 := eNew_authz stmt
  have h2 := eNew_rate stmt
  have h3 := eNew_idem stmt
  have h4 := eNew_timeout stmt
  have h5 := eNew_error stmt
  have h6 := eNew_obs stmt
  simp only [Bool.or_eq_true] at h2 h5 h6
  simp [apiMissingCount, apiHasAuthz, apiHasRate, apiHasIdempotency, apiHasTimeouts,
        apiHasError, apiHasObs, h1, h3, h4]
  rcases h2 with h2 | h2 <;> rcases h5 with h5 | h5 <;>
    rcases h6 with (h6 | h6) | h6 <;> simp [h2, h5, h6]

/-- Claim C6: for every contract statement that is API-weak (at least
two of the six vocabulary terms missing), phase E appends to the
statement without modifying it (the old statement is a prefix of the new
one), appends exactly the fragments whose keyword test fails, and the
operation is idempotent: on the hardened statement no enhancement
remains and the contract is no longer API-weak. -/
theorem C6_phaseE (stmt : String) (h : 2 ≤ apiMissingCount stmt) :
    phaseEConclusion stmt := by
  refine ⟨⟨" (" ++ joinComma (eEnhancements stmt) ++ ")", ?_⟩, ?_,
    mem_eEnhancements_authz stmt, mem_eEnhancements_rate stmt,
    mem_eEnhancements_idem stmt, mem_eEnhancements_timeout stmt,
    mem_eEnhancements_error stmt, mem_eEnhancements_obs stmt,
    eEnhancements_eNewStmt stmt, apiMissingCount_eNewStmt stmt⟩
  · show stmt ++ " (" ++ joinComma (eEnhancements stmt) ++ ")" =
      stmt ++ (" (" ++ joinComma (eEnhancements stmt) ++ ")")
    simp [String.append_assoc]
  · intro hemp
    have h1 : strHas stmt "authz" = true := by
      by_contra hne
      rw [Bool.not_eq_true] at hne
      have hm := (mem_eEnhancements_authz stmt).mpr hne
      rw [hemp] at hm
      cases hm
    have h2 : (strHas stmt "rate" || strHas stmt "quota") = true := by
      by_contra hne
      rw [Bool.not_eq_true] at hne
      have hm := (mem_eEnhancements_rate stmt).mpr hne
      rw [hemp] at hm
      cases hm
    have h3 : strHas stmt "idempotency" = true := by
      by_contra hne
      rw [Bool.not_eq_true] at hne
      have hm := (mem_eEnhancements_idem stmt).mpr hne
      rw [hemp] at hm
      cases hm
    have h4 : strHas stmt "timeout" = true := by
      by_contra hne
      rw [Bool.not_eq_true] at hne
      have hm := (mem_eEnhancements_timeout stmt).mpr hne
      rw [hemp] at hm
      cases hm
    have h5 : (strHas stmt "error" || strHas stmt "taxonomy") = true := by
      by_contra hne
      rw [Bool.not_eq_true] at hne
      have hm := (mem_eEnhancements_error stmt).mpr hne
      rw [hemp] at hm
      cases hm
    have h6 : (strHas stmt "observability" || strHas stmt "log" ||
        strHas stmt "metric") = true := by
      by_contra hne
      rw [Bool.not_eq_true] at hne
      have hm := (mem_eEnhancements_obs stmt).mpr hne
      rw [hemp] at hm
      cases hm
    simp only [Bool.or_eq_true] at h2 h5 h6
    have hz : apiMissingCount stmt = 0 := by
      simp only [apiMissingCount, apiHasAuthz, apiHasRate, apiHasIdempotency,
        apiHasTimeouts, apiHasError, apiHasObs, h1, h3, h4]
      rcases h2 with h2 | h2 <;> rcases h5 with h5 | h5 <;>
        rcases h6 with (h6 | h6) | h6 <;> simp [h2, h5, h6]
    omega

/-- Claim C6, witness at the empty statement (all six terms missing). -/
theorem C6_witness : 2 ≤ apiMissingCount "" ∧ phaseEConclusion "" :=
  ⟨by decide, C6_phaseE "" (by decide)⟩

/-! ## Claim C9: robustness to malformed and dangling input -/

/-- Claim C9, counterexample: loading a store that contains an
unparseable node file, a record without an id, and an unparseable edge
line succeeds and skips them — but the list of recorded warnings is
empty, refuting the claim that the skips are accompanied by a recorded
warning. -/
theorem C9_counterexample :
    (loadStore ce9dirs ce9lines).2 = [] ∧
    (loadStore ce9dirs ce9lines).1.nodes.length = 1 ∧
    (loadStore ce9dirs ce9lines).1.edges.length = 1 := by
  refine ⟨rfl, ?_, ?_⟩ <;> decide

/-- Claim C9 (amended): loading never fails and skips silently — the
warning list is always empty, an unparseable node file, an id-less
record and an unparseable edge line each contribute nothing to the
loaded graph, and the analyzer treats a reference to a nonexistent node
id as absent (its requirement count is zero) instead of raising. -/
theorem C9_amended :
    (∀ (dirs : List (String × List (Option (Option String × Node))))
       (lines : List (Option Edge)), (loadStore dirs lines).2 = []) ∧
    (∀ (d1 d2 : List (String × List (Option (Option String × Node))))
       (t : String) (fs1 fs2 : List (Option (Option String × Node)))
       (lines : List (Option Edge)),
      loadStore (d1 ++ (t, fs1 ++ none :: fs2) :: d2) lines =
        loadStore (d1 ++ (t, fs1 ++ fs2) :: d2) lines) ∧
    (∀ (d1 d2 : List (String × List (Option (Option String × Node))))
       (t : String) (fs1 fs2 : List (Option (Option String × Node)))
       (lines : List (Option Edge)) (n : Node),
      loadStore (d1 ++ (t, fs1 ++ some (none, n) :: fs2) :: d2) lines =
        loadStore (d1 ++ (t, fs1 ++ fs2) :: d2) lines) ∧
    (∀ (dirs : List (String × List (Option (Option String × Node))))
       (ls1 ls2 : List (Option Edge)),
      loadStore dirs (ls1 ++ none :: ls2) = loadStore dirs (ls1 ++ ls2)) ∧
    (∀ (g : Graph) (rid : String), g.getNode rid = none → s0ReqCount g rid = 0) := by
  refine ⟨fun dirs lines => rfl, ?_, ?_, ?_, ?_⟩
  · intro d1 d2 t fs1 fs2 lines
    simp [loadStore, List.foldl_append]
  · intro d1 d2 t fs1 fs2 lines n
    simp [loadStore, List.foldl_append]
  · intro dirs ls1 ls2
    simp [loadStore, List.filterMap_append]
  · intro g rid h
    simp [s0ReqCount, h]

/-- Claim C9, witness: the amended theorem applied at the concrete
malformed store and at a dangling requirement reference. -/
theorem C9_amended_witness :
    (loadStore ce9dirs ce9lines).2 = [] ∧
    emptyGraph.getNode "req:ghost" = none ∧
    s0ReqCount emptyGraph "req:ghost" = 0 :=
  ⟨C9_amended.1 ce9dirs ce9lines, by decide,
   C9_amended.2.2.2.2 emptyGraph "req:ghost" (by decide)⟩

end PlanRepair
